import Mathlib

/-!
Shallow embedding of the Opus identification-header codec
(`OpusHeader.cpp`, Android `frameworks/av`): the channel-mapping table
`kOpusChannelMap`, the defensive little-endian reader `ReadLE16`, the
parser `ParseOpusHeader` and the serializer `WriteOpusHeader`, together
with theorems settling the specification claims about them.

Modelling conventions:
  * byte buffers are `List Nat` whose entries model `uint8_t` values
    (in the statements that quantify over arbitrary buffers the entries
    are constrained to `< 256`, matching the C type);
  * `uint8_t` stores truncate with `% 256`, exactly as the C casts do;
  * multi-byte `memcpy` stores are spelled out as their little-endian
    byte sequences (the target platform of this code is little-endian);
  * `WriteOpusHeader` returns `Option (Int × List Nat)`: `some (r, out)`
    is the C return value `r` together with the final contents of the
    caller's buffer, while `none` marks an execution that indexes
    `kOpusChannelMap` out of bounds (undefined behaviour in the C code);
  * `ParseOpusHeader` returns `Bool × OpusHeader`: the C `bool` result
    and the final contents of the caller-supplied out-parameter.
-/

/-- `constexpr int kMaxChannels = 8;` -/
def kMaxChannels : Nat := 8

/-- Rows of `constexpr uint8_t kOpusChannelMap[kMaxChannels][kMaxChannels]`.
The C array is 8×8 with zero padding past the meaningful entries of each
row; `kOpusChannelMap` below reinstates that padding via `getD _ 0`. -/
def kOpusChannelMapRows : List (List Nat) :=
  [[0],
   [0, 1],
   [0, 2, 1],
   [0, 1, 2, 3],
   [0, 4, 1, 2, 3],
   [0, 4, 1, 2, 3, 5],
   [0, 4, 1, 2, 3, 5, 6],
   [0, 6, 1, 2, 3, 4, 5, 7]]

/-- Indexing `kOpusChannelMap[r][c]`: defined (with zero padding) inside
the 8×8 array, `none` (undefined behaviour) outside it. -/
def kOpusChannelMap (r c : Nat) : Option Nat :=
  if r < kMaxChannels ∧ c < kMaxChannels then
    some ((kOpusChannelMapRows.getD r []).getD c 0)
  else none

/-- `constexpr int kRate = 48000;` -/
def kRate : Nat := 48000

/-- `constexpr size_t kOpusHeaderSize = 19;` -/
def kOpusHeaderSize : Nat := 19

/-- `constexpr size_t kOpusHeaderLabelOffset = 0;` -/
def kOpusHeaderLabelOffset : Nat := 0

/-- `constexpr size_t kOpusHeaderVersionOffset = 8;` -/
def kOpusHeaderVersionOffset : Nat := 8

/-- `constexpr size_t kOpusHeaderChannelsOffset = 9;` -/
def kOpusHeaderChannelsOffset : Nat := 9

/-- `constexpr size_t kOpusHeaderSkipSamplesOffset = 10;` -/
def kOpusHeaderSkipSamplesOffset : Nat := 10

/-- `constexpr size_t kOpusHeaderSampleRateOffset = 12;` -/
def kOpusHeaderSampleRateOffset : Nat := 12

/-- `constexpr size_t kOpusHeaderGainOffset = 16;` -/
def kOpusHeaderGainOffset : Nat := 16

/-- `constexpr size_t kOpusHeaderChannelMappingOffset = 18;` -/
def kOpusHeaderChannelMappingOffset : Nat := 18

/-- `constexpr size_t kOpusHeaderNumStreamsOffset = 19;` -/
def kOpusHeaderNumStreamsOffset : Nat := 19

/-- `constexpr size_t kOpusHeaderNumCoupledStreamsOffset = 20;` -/
def kOpusHeaderNumCoupledStreamsOffset : Nat := 20

/-- `constexpr size_t kOpusHeaderStreamMapOffset = 21;` -/
def kOpusHeaderStreamMapOffset : Nat := 21

/-- `constexpr int kMaxChannelsWithDefaultLayout = 2;` -/
def kMaxChannelsWithDefaultLayout : Nat := 2

/-- Modelled from the spec: the `OpusHeader` structure is declared in
`OpusHeader.h`, which is not among the provided sources; its fields are
exactly those used by `ParseOpusHeader` and `WriteOpusHeader` and match
the data model of spec §3. `stream_map` models `uint8_t stream_map[8]`
(a list of length 8 in every concrete header below); `gain_db` models
the signed 16-bit `gain_db` field. -/
structure OpusHeader where
  channels : Nat
  channel_mapping : Nat
  num_streams : Nat
  num_coupled : Nat
  gain_db : Int
  skip_samples : Nat
  stream_map : List Nat
deriving DecidableEq

/-- `static uint16_t ReadLE16(const uint8_t* data, size_t data_size,
uint32_t read_offset)`.  The C body is
`if (read_offset + 1 >= data_size) return 0;
 val = data[read_offset]; val |= data[read_offset + 1] << 8;`.
On `uint8_t` data the bit-or of the two disjoint byte lanes is exactly
addition, so the composed value is written `lo + 256 * hi`. -/
def ReadLE16 (data : List Nat) (read_offset : Nat) : Nat :=
  if read_offset + 1 ≥ data.length then 0
  else data.getD read_offset 0 + 256 * data.getD (read_offset + 1) 0

/-- The C cast `static_cast<int16_t>(v)` applied to a `uint16_t` value:
two's-complement reinterpretation of the low 16 bits. -/
def toInt16 (v : Nat) : Int :=
  if v < 32768 then (v : Int) else (v : Int) - 65536

/-- The loop `for (int i = 0; i < header->channels; ++i)
  header->stream_map[i] = data[kOpusHeaderStreamMapOffset + i];`
of `ParseOpusHeader`, acting on the `stream_map` field. -/
def copyStreamMap (data : List Nat) (sm : List Nat) (channels : Nat) : List Nat :=
  (List.range channels).foldl
    (fun acc i => acc.set i (data.getD (kOpusHeaderStreamMapOffset + i) 0)) sm

/-- `bool ParseOpusHeader(const uint8_t* data, size_t data_size,
OpusHeader* header)`.  The result is the C `bool` return value paired
with the final contents of the out-parameter `header` (whose incoming
contents are the second argument). -/
def ParseOpusHeader (data : List Nat) (header : OpusHeader) : Bool × OpusHeader :=
  if data.length < kOpusHeaderSize then
    (false, header)
  else
    let header := { header with channels := data.getD kOpusHeaderChannelsOffset 0 }
    if header.channels < 1 ∨ header.channels > kMaxChannels then
      (false, header)
    else
      let header := { header with
        skip_samples := ReadLE16 data kOpusHeaderSkipSamplesOffset }
      let header := { header with
        gain_db := toInt16 (ReadLE16 data kOpusHeaderGainOffset) }
      let header := { header with
        channel_mapping := data.getD kOpusHeaderChannelMappingOffset 0 }
      if header.channel_mapping = 0 then
        if header.channels > kMaxChannelsWithDefaultLayout then
          (false, header)
        else
          let header := { header with
            num_streams := 1,
            num_coupled := if header.channels > 1 then 1 else 0,
            stream_map := (header.stream_map.set 0 0).set 1 1 }
          (true, header)
      else
        if data.length < kOpusHeaderStreamMapOffset + header.channels then
          (false, header)
        else
          let header := { header with
            num_streams := data.getD kOpusHeaderNumStreamsOffset 0,
            num_coupled := data.getD kOpusHeaderNumCoupledStreamsOffset 0 }
          if header.num_streams + header.num_coupled ≠ header.channels then
            (false, header)
          else
            let header := { header with
              stream_map := copyStreamMap data header.stream_map header.channels }
            (true, header)

/-- The bytes of the magic signature `"OpusHead"`. -/
def opusHeadMagic : List Nat := [79, 112, 117, 115, 72, 101, 97, 100]

/-- Little-endian bytes of the low 16 bits of a value (the effect of
`memcpy(dst, &v, sizeof(uint16_t))` on a little-endian platform). -/
def le16 (v : Nat) : List Nat := [v % 256, v / 256 % 256]

/-- Little-endian bytes of the low 32 bits of a value (the effect of
`memcpy(dst, &v, sizeof(uint32_t))` on a little-endian platform). -/
def le32 (v : Nat) : List Nat :=
  [v % 256, v / 256 % 256, v / 65536 % 256, v / 16777216 % 256]

/-- Little-endian bytes of an `int16_t` value: the two's-complement low
16 bits. -/
def int16LE (g : Int) : List Nat := le16 (g % 65536).toNat

/-- Store a list of byte values at consecutive offsets (a `memcpy`). -/
def writeBytes : List Nat → Nat → List Nat → List Nat
  | out, _, [] => out
  | out, off, v :: vs => writeBytes (out.set off v) (off + 1) vs

/-- The stream-map emission loop of `WriteOpusHeader`,
`for (int i = 0; i < channels; ++i)
   output[kOpusHeaderStreamMapOffset + i] = kOpusChannelMap[row][i];`
with the row index `row = header.channels - 1` fixed for the whole
loop.  `none` records an out-of-bounds table access. -/
def writeStreamMapAux (row : Nat) (n : Nat) (out : List Nat) : Option (List Nat) :=
  (List.range n).foldlM
    (fun acc i => (kOpusChannelMap row i).map
      (fun v => acc.set (kOpusHeaderStreamMapOffset + i) v)) out

/-- `int WriteOpusHeader(const OpusHeader &header, int input_sample_rate,
uint8_t* output, size_t output_size)`.  The third argument supplies the
initial contents of the caller's buffer (`output_size` is its length);
the result pairs the C return value with the final buffer contents, and
is `none` when the C code would index `kOpusChannelMap` out of bounds. -/
def WriteOpusHeader (header : OpusHeader) (input_sample_rate : Nat)
    (output : List Nat) : Option (Int × List Nat) :=
  let output_size := output.length
  let total_size := kOpusHeaderStreamMapOffset + header.channels
  if output_size < total_size then
    some (-1, output)
  else
    let out := List.replicate output_size 0
    let out := writeBytes out kOpusHeaderLabelOffset opusHeadMagic
    let out := out.set kOpusHeaderVersionOffset 1
    let out := out.set kOpusHeaderChannelsOffset (header.channels % 256)
    let out := writeBytes out kOpusHeaderSkipSamplesOffset (le16 header.skip_samples)
    let out := writeBytes out kOpusHeaderSampleRateOffset (le32 input_sample_rate)
    let out := writeBytes out kOpusHeaderGainOffset (int16LE header.gain_db)
    if header.channels > 2 then
      let out := out.set kOpusHeaderChannelMappingOffset 1
      let out := out.set kOpusHeaderNumStreamsOffset (header.channels % 256)
      let out := out.set kOpusHeaderNumCoupledStreamsOffset 0
      match writeStreamMapAux (header.channels - 1) header.channels out with
      | none => none
      | some out => some (((kOpusHeaderStreamMapOffset + header.channels + 1 : Nat) : Int), out)
    else
      let out := out.set kOpusHeaderChannelMappingOffset 0
      some (((kOpusHeaderChannelMappingOffset + 1 : Nat) : Int), out)

/-- The contents of the output buffer of `WriteOpusHeader` after the
`memset` and the six fixed-region stores (magic, version, channel
count, pre-skip, sample rate, gain), before the mapping branch. -/
def wbufFixed (h : OpusHeader) (rate : Nat) (L : Nat) : List Nat :=
  writeBytes (writeBytes (writeBytes
    (((writeBytes (List.replicate L 0) 0 opusHeadMagic).set 8 1).set
      9 (h.channels % 256))
    10 (le16 h.skip_samples)) 12 (le32 rate)) 16 (int16LE h.gain_db)

/-- The pure (in-bounds) form of the stream-map emission loop. -/
def mapFold (row n : Nat) (out : List Nat) : List Nat :=
  (List.range n).foldl
    (fun acc i => acc.set (kOpusHeaderStreamMapOffset + i)
      ((kOpusChannelMapRows.getD row []).getD i 0)) out

/-- A scratch header value used as the initial contents of parser
out-parameters and as a base for concrete writer inputs. -/
def hdrZero : OpusHeader :=
  { channels := 0, channel_mapping := 0, num_streams := 0, num_coupled := 0,
    gain_db := 0, skip_samples := 0, stream_map := List.replicate 8 0 }

/-- A concrete 3-channel header. -/
def hdrThree : OpusHeader := { hdrZero with channels := 3 }

/-- A concrete 2-channel header. -/
def hdrTwo : OpusHeader := { hdrZero with channels := 2 }

/-- A concrete 6-channel header. -/
def hdrSix : OpusHeader := { hdrZero with channels := 6 }

/-- A concrete 9-channel header (out of the 1..=8 range). -/
def hdrNine : OpusHeader := { hdrZero with channels := 9 }

/-- A concrete stereo header with a nonzero pre-skip and a negative
gain, exercising the round-trip. -/
def hdrRt : OpusHeader :=
  { hdrZero with channels := 2, skip_samples := 312, gain_db := -5 }

theorem getD_set (l : List Nat) (i j v : Nat) :
    (l.set i v).getD j 0 = if i = j ∧ i < l.length then v else l.getD j 0 := by
  by_cases hij : i = j
  · subst hij
    by_cases hl : i < l.length
    · simp [List.getD_eq_getElem?_getD, List.getElem?_set_self hl, hl]
    · have h1 : (l.set i v)[i]? = none := by
        rw [List.getElem?_eq_none]
        simp at hl ⊢
        omega
      have h2 : l[i]? = none := by
        rw [List.getElem?_eq_none]; omega
      simp [List.getD_eq_getElem?_getD, h1, h2, hl]
  · simp [List.getD_eq_getElem?_getD, List.getElem?_set_ne hij, hij]

theorem getD_replicate (n i : Nat) : (List.replicate n (0 : Nat)).getD i 0 = 0 := by
  by_cases h : i < n
  · simp [List.getD_eq_getElem?_getD, List.getElem?_replicate, h]
  · have : (List.replicate n (0 : Nat))[i]? = none := by
      rw [List.getElem?_eq_none]; simp; omega
    simp [List.getD_eq_getElem?_getD, this]

theorem getD_set_self (l : List Nat) (i v : Nat) (h : i < l.length) :
    (l.set i v).getD i 0 = v := by
  simp [getD_set, h]

theorem getD_set_ne (l : List Nat) (i j v : Nat) (h : i ≠ j) :
    (l.set i v).getD j 0 = l.getD j 0 := by
  simp [getD_set, h]

theorem writeBytes_length (vs : List Nat) (l : List Nat) (off : Nat) :
    (writeBytes l off vs).length = l.length := by
  induction vs generalizing l off with
  | nil => simp [writeBytes]
  | cons v tl ih => simp [writeBytes, ih]

theorem writeBytes_getD_lo (vs : List Nat) (l : List Nat) (off j : Nat)
    (h : j < off) : (writeBytes l off vs).getD j 0 = l.getD j 0 := by
  induction vs generalizing l off with
  | nil => simp [writeBytes]
  | cons v tl ih =>
    rw [writeBytes, ih _ _ (by omega), getD_set_ne _ _ _ _ (by omega)]

theorem writeBytes_getD_hi (vs : List Nat) (l : List Nat) (off j : Nat)
    (h : off + vs.length ≤ j) : (writeBytes l off vs).getD j 0 = l.getD j 0 := by
  induction vs generalizing l off with
  | nil => simp [writeBytes]
  | cons v tl ih =>
    rw [writeBytes, ih _ _ (by simp at h ⊢; omega),
      getD_set_ne _ _ _ _ (by simp at h; omega)]

theorem wbufFixed_length (h : OpusHeader) (rate L : Nat) :
    (wbufFixed h rate L).length = L := by
  simp [wbufFixed, writeBytes_length, le16, le32, int16LE]

theorem wbufFixed_getD_9 (h : OpusHeader) (rate L : Nat) (hL : 18 ≤ L) :
    (wbufFixed h rate L).getD 9 0 = h.channels % 256 := by
  rw [wbufFixed, writeBytes_getD_lo _ _ _ _ (by omega),
    writeBytes_getD_lo _ _ _ _ (by omega),
    writeBytes_getD_lo _ _ _ _ (by omega),
    getD_set_self]
  simp [writeBytes_length]
  omega

theorem wbufFixed_getD_10 (h : OpusHeader) (rate L : Nat) (hL : 18 ≤ L) :
    (wbufFixed h rate L).getD 10 0 = h.skip_samples % 256 := by
  rw [wbufFixed, writeBytes_getD_lo _ _ _ _ (by omega),
    writeBytes_getD_lo _ _ _ _ (by omega)]
  show (writeBytes _ 10 (le16 h.skip_samples)).getD 10 0 = _
  rw [le16, writeBytes, writeBytes, writeBytes,
    getD_set_ne _ _ _ _ (by omega), getD_set_self]
  simp [writeBytes_length]
  omega

theorem wbufFixed_getD_11 (h : OpusHeader) (rate L : Nat) (hL : 18 ≤ L) :
    (wbufFixed h rate L).getD 11 0 = h.skip_samples / 256 % 256 := by
  rw [wbufFixed, writeBytes_getD_lo _ _ _ _ (by omega),
    writeBytes_getD_lo _ _ _ _ (by omega)]
  show (writeBytes _ 10 (le16 h.skip_samples)).getD 11 0 = _
  rw [le16, writeBytes, writeBytes, writeBytes, getD_set_self]
  simp [writeBytes_length]
  omega

theorem wbufFixed_getD_16 (h : OpusHeader) (rate L : Nat) (hL : 18 ≤ L) :
    (wbufFixed h rate L).getD 16 0 = (h.gain_db % 65536).toNat % 256 := by
  have h16 : 16 < L := by omega
  simp only [wbufFixed, int16LE, le16, le32, opusHeadMagic, writeBytes]
  simp [getD_set, List.length_set, List.length_replicate, h16]

theorem wbufFixed_getD_17 (h : OpusHeader) (rate L : Nat) (hL : 18 ≤ L) :
    (wbufFixed h rate L).getD 17 0 = (h.gain_db % 65536).toNat / 256 % 256 := by
  have h17 : 17 < L := by omega
  simp only [wbufFixed, int16LE, le16, le32, opusHeadMagic, writeBytes]
  simp [getD_set, List.length_set, List.length_replicate, h17]

theorem wbufFixed_getD_ge18 (h : OpusHeader) (rate L j : Nat) (hj : 18 ≤ j) :
    (wbufFixed h rate L).getD j 0 = 0 := by
  rw [wbufFixed,
    writeBytes_getD_hi _ _ _ _ (by simp [int16LE, le16]; omega),
    writeBytes_getD_hi _ _ _ _ (by simp [le32]; omega),
    writeBytes_getD_hi _ _ _ _ (by simp [le16]; omega),
    getD_set_ne _ _ _ _ (by omega), getD_set_ne _ _ _ _ (by omega),
    writeBytes_getD_hi _ _ _ _ (by simp [opusHeadMagic]; omega),
    getD_replicate]

theorem copyStreamMap_succ (data sm : List Nat) (n : Nat) :
    copyStreamMap data sm (n + 1) =
      (copyStreamMap data sm n).set n (data.getD (kOpusHeaderStreamMapOffset + n) 0) := by
  simp [copyStreamMap, List.range_succ]

theorem copyStreamMap_length (data sm : List Nat) (n : Nat) :
    (copyStreamMap data sm n).length = sm.length := by
  induction n with
  | zero => simp [copyStreamMap]
  | succ m ih => simp [copyStreamMap_succ, ih]

theorem copyStreamMap_getD_lt (data sm : List Nat) (n i : Nat)
    (hi : i < n) (hsm : i < sm.length) :
    (copyStreamMap data sm n).getD i 0 =
      data.getD (kOpusHeaderStreamMapOffset + i) 0 := by
  induction n with
  | zero => omega
  | succ m ih =>
    rw [copyStreamMap_succ]
    by_cases him : i = m
    · subst him
      rw [getD_set_self]
      rw [copyStreamMap_length]
      omega
    · rw [getD_set_ne _ _ _ _ (by omega)]
      exact ih (by omega)

theorem mapFold_succ (row n : Nat) (out : List Nat) :
    mapFold row (n + 1) out =
      (mapFold row n out).set (kOpusHeaderStreamMapOffset + n)
        ((kOpusChannelMapRows.getD row []).getD n 0) := by
  simp [mapFold, List.range_succ]

theorem mapFold_length (row n : Nat) (out : List Nat) :
    (mapFold row n out).length = out.length := by
  induction n with
  | zero => simp [mapFold]
  | succ m ih => simp [mapFold_succ, ih]

theorem mapFold_getD_lt (row n i : Nat) (out : List Nat)
    (hi : i < n) (hlen : kOpusHeaderStreamMapOffset + i < out.length) :
    (mapFold row n out).getD (kOpusHeaderStreamMapOffset + i) 0 =
      (kOpusChannelMapRows.getD row []).getD i 0 := by
  induction n with
  | zero => omega
  | succ m ih =>
    rw [mapFold_succ]
    by_cases him : i = m
    · subst him
      rw [getD_set_self]
      rw [mapFold_length]
      simpa [kOpusHeaderStreamMapOffset] using hlen
    · rw [getD_set_ne _ _ _ _ (by simp [kOpusHeaderStreamMapOffset]; omega)]
      exact ih (by omega)

theorem mapFold_getD_lo (row n j : Nat) (out : List Nat)
    (hj : j < kOpusHeaderStreamMapOffset) :
    (mapFold row n out).getD j 0 = out.getD j 0 := by
  induction n with
  | zero => simp [mapFold]
  | succ m ih =>
    rw [mapFold_succ, getD_set_ne _ _ _ _ (by simp [kOpusHeaderStreamMapOffset] at hj ⊢; omega), ih]

theorem mapFold_getD_hi (row n j : Nat) (out : List Nat)
    (hj : kOpusHeaderStreamMapOffset + n ≤ j) :
    (mapFold row n out).getD j 0 = out.getD j 0 := by
  induction n with
  | zero => simp [mapFold]
  | succ m ih =>
    rw [mapFold_succ,
      getD_set_ne _ _ _ _ (by simp [kOpusHeaderStreamMapOffset] at hj ⊢; omega),
      ih (by omega)]

theorem writeStreamMapAux_eq_mapFold (row n : Nat) (out : List Nat)
    (hrow : row < kMaxChannels) (hn : n ≤ kMaxChannels) :
    writeStreamMapAux row n out = some (mapFold row n out) := by
  induction n with
  | zero => simp [writeStreamMapAux, mapFold]
  | succ m ih =>
    have hm : kOpusChannelMap row m = some ((kOpusChannelMapRows.getD row []).getD m 0) := by
      simp [kOpusChannelMap, kMaxChannels] at hrow hn ⊢
      constructor <;> omega
    rw [writeStreamMapAux, List.range_succ, List.foldlM_append]
    rw [writeStreamMapAux] at ih
    rw [ih (by omega)]
    simp [hm, mapFold_succ]

theorem writeStreamMapAux_oob (row n : Nat) (out : List Nat)
    (hrow : kMaxChannels ≤ row) (hn : 1 ≤ n) :
    writeStreamMapAux row n out = none := by
  obtain ⟨m, rfl⟩ : ∃ m, n = m + 1 := ⟨n - 1, by omega⟩
  have h0 : kOpusChannelMap row 0 = none := by
    simp [kOpusChannelMap, kMaxChannels] at hrow ⊢
    omega
  rw [writeStreamMapAux, List.range_succ_eq_map, List.foldlM_cons]
  simp [h0]

theorem write_eq_le2 (h : OpusHeader) (rate : Nat) (buf : List Nat)
    (h2 : h.channels ≤ 2) (hcap : kOpusHeaderStreamMapOffset + h.channels ≤ buf.length) :
    WriteOpusHeader h rate buf =
      some (19, (wbufFixed h rate buf.length).set 18 0) := by
  simp only [WriteOpusHeader, wbufFixed, kOpusHeaderLabelOffset,
    kOpusHeaderVersionOffset, kOpusHeaderChannelsOffset,
    kOpusHeaderSkipSamplesOffset, kOpusHeaderSampleRateOffset,
    kOpusHeaderGainOffset, kOpusHeaderChannelMappingOffset,
    kOpusHeaderStreamMapOffset]
  simp only [kOpusHeaderStreamMapOffset] at hcap
  rw [if_neg (by omega), if_neg (by omega)]
  norm_num

theorem write_eq_gt2 (h : OpusHeader) (rate : Nat) (buf : List Nat)
    (h3 : 2 < h.channels) (h8 : h.channels ≤ 8)
    (hcap : kOpusHeaderStreamMapOffset + h.channels ≤ buf.length) :
    WriteOpusHeader h rate buf =
      some (((kOpusHeaderStreamMapOffset + h.channels + 1 : Nat) : Int),
        mapFold (h.channels - 1) h.channels
          ((((wbufFixed h rate buf.length).set 18 1).set
            19 (h.channels % 256)).set 20 0)) := by
  simp only [WriteOpusHeader, wbufFixed, kOpusHeaderLabelOffset,
    kOpusHeaderVersionOffset, kOpusHeaderChannelsOffset,
    kOpusHeaderSkipSamplesOffset, kOpusHeaderSampleRateOffset,
    kOpusHeaderGainOffset, kOpusHeaderChannelMappingOffset,
    kOpusHeaderNumStreamsOffset, kOpusHeaderNumCoupledStreamsOffset]
  simp only [kOpusHeaderStreamMapOffset] at hcap
  rw [if_neg (by simp only [kOpusHeaderStreamMapOffset]; omega), if_pos h3,
    writeStreamMapAux_eq_mapFold _ _ _ (by simp [kMaxChannels]; omega)
      (by simp [kMaxChannels]; omega)]

theorem parse_badchannel (data : List Nat) (h0 : OpusHeader)
    (hlen : 19 ≤ data.length)
    (hbad : data.getD 9 0 < 1 ∨ 8 < data.getD 9 0) :
    ParseOpusHeader data h0 = (false, { h0 with channels := data.getD 9 0 }) := by
  simp only [ParseOpusHeader, kOpusHeaderSize, kOpusHeaderChannelsOffset, kMaxChannels]
  rw [if_neg (by omega), if_pos (by omega)]

theorem ReadLE16_of_lt (data : List Nat) (off : Nat) (h : off + 1 < data.length) :
    ReadLE16 data off = data.getD off 0 + 256 * data.getD (off + 1) 0 := by
  rw [ReadLE16, if_neg (by omega)]

theorem parse_family0_le2 (data : List Nat) (h0 : OpusHeader)
    (hlen : 19 ≤ data.length) (h1 : 1 ≤ data.getD 9 0) (h2 : data.getD 9 0 ≤ 2)
    (hfam : data.getD 18 0 = 0) :
    ParseOpusHeader data h0 =
      (true, { h0 with
        channels := data.getD 9 0,
        skip_samples := ReadLE16 data 10,
        gain_db := toInt16 (ReadLE16 data 16),
        channel_mapping := 0,
        num_streams := 1,
        num_coupled := if 1 < data.getD 9 0 then 1 else 0,
        stream_map := (h0.stream_map.set 0 0).set 1 1 }) := by
  simp only [ParseOpusHeader, kOpusHeaderSize, kOpusHeaderChannelsOffset,
    kMaxChannels, kOpusHeaderSkipSamplesOffset, kOpusHeaderGainOffset,
    kOpusHeaderChannelMappingOffset, kMaxChannelsWithDefaultLayout]
  rw [if_neg (by omega), if_neg (by omega), if_pos hfam, if_neg (by omega), hfam]

theorem parse_family0_le2_proj (data : List Nat) (h0 : OpusHeader)
    (hlen : 19 ≤ data.length) (h1 : 1 ≤ data.getD 9 0) (h2 : data.getD 9 0 ≤ 2)
    (hfam : data.getD 18 0 = 0) :
    (ParseOpusHeader data h0).1 = true ∧
    (ParseOpusHeader data h0).2.channels = data.getD 9 0 ∧
    (ParseOpusHeader data h0).2.skip_samples = ReadLE16 data 10 ∧
    (ParseOpusHeader data h0).2.gain_db = toInt16 (ReadLE16 data 16) ∧
    (ParseOpusHeader data h0).2.num_streams = 1 ∧
    (ParseOpusHeader data h0).2.num_coupled = (if 1 < data.getD 9 0 then 1 else 0) := by
  rw [parse_family0_le2 data h0 hlen h1 h2 hfam]
  exact ⟨rfl, rfl, rfl, rfl, rfl, rfl⟩

theorem parse_family0_gt2 (data : List Nat) (h0 : OpusHeader)
    (hlen : 19 ≤ data.length) (h1 : 2 < data.getD 9 0) (h8 : data.getD 9 0 ≤ 8)
    (hfam : data.getD 18 0 = 0) :
    ParseOpusHeader data h0 =
      (false, { h0 with
        channels := data.getD 9 0,
        skip_samples := ReadLE16 data 10,
        gain_db := toInt16 (ReadLE16 data 16),
        channel_mapping := 0 }) := by
  simp only [ParseOpusHeader, kOpusHeaderSize, kOpusHeaderChannelsOffset,
    kMaxChannels, kOpusHeaderSkipSamplesOffset, kOpusHeaderGainOffset,
    kOpusHeaderChannelMappingOffset, kMaxChannelsWithDefaultLayout]
  rw [if_neg (by omega), if_neg (by omega), if_pos hfam, if_pos (by omega), hfam]

theorem parse_trunc (data : List Nat) (h0 : OpusHeader)
    (hlen : 19 ≤ data.length) (h1 : 1 ≤ data.getD 9 0) (h8 : data.getD 9 0 ≤ 8)
    (hfam : data.getD 18 0 ≠ 0) (hshort : data.length < 21 + data.getD 9 0) :
    ParseOpusHeader data h0 =
      (false, { h0 with
        channels := data.getD 9 0,
        skip_samples := ReadLE16 data 10,
        gain_db := toInt16 (ReadLE16 data 16),
        channel_mapping := data.getD 18 0 }) := by
  simp only [ParseOpusHeader, kOpusHeaderSize, kOpusHeaderChannelsOffset,
    kMaxChannels, kOpusHeaderSkipSamplesOffset, kOpusHeaderGainOffset,
    kOpusHeaderChannelMappingOffset, kMaxChannelsWithDefaultLayout,
    kOpusHeaderStreamMapOffset]
  rw [if_neg (by omega), if_neg (by omega), if_neg hfam, if_pos (by omega)]

theorem parse_inconsistent (data : List Nat) (h0 : OpusHeader)
    (hlen : 19 ≤ data.length) (h1 : 1 ≤ data.getD 9 0) (h8 : data.getD 9 0 ≤ 8)
    (hfam : data.getD 18 0 ≠ 0) (hcap : 21 + data.getD 9 0 ≤ data.length)
    (hsum : data.getD 19 0 + data.getD 20 0 ≠ data.getD 9 0) :
    ParseOpusHeader data h0 =
      (false, { h0 with
        channels := data.getD 9 0,
        skip_samples := ReadLE16 data 10,
        gain_db := toInt16 (ReadLE16 data 16),
        channel_mapping := data.getD 18 0,
        num_streams := data.getD 19 0,
        num_coupled := data.getD 20 0 }) := by
  simp only [ParseOpusHeader, kOpusHeaderSize, kOpusHeaderChannelsOffset,
    kMaxChannels, kOpusHeaderSkipSamplesOffset, kOpusHeaderGainOffset,
    kOpusHeaderChannelMappingOffset, kMaxChannelsWithDefaultLayout,
    kOpusHeaderStreamMapOffset, kOpusHeaderNumStreamsOffset,
    kOpusHeaderNumCoupledStreamsOffset]
  rw [if_neg (by omega), if_neg (by omega), if_neg hfam, if_neg (by omega),
    if_pos (by omega)]

theorem parse_familyN_ok (data : List Nat) (h0 : OpusHeader)
    (hlen : 19 ≤ data.length) (h1 : 1 ≤ data.getD 9 0) (h8 : data.getD 9 0 ≤ 8)
    (hfam : data.getD 18 0 ≠ 0) (hcap : 21 + data.getD 9 0 ≤ data.length)
    (hsum : data.getD 19 0 + data.getD 20 0 = data.getD 9 0) :
    ParseOpusHeader data h0 =
      (true, { h0 with
        channels := data.getD 9 0,
        skip_samples := ReadLE16 data 10,
        gain_db := toInt16 (ReadLE16 data 16),
        channel_mapping := data.getD 18 0,
        num_streams := data.getD 19 0,
        num_coupled := data.getD 20 0,
        stream_map := copyStreamMap data h0.stream_map (data.getD 9 0) }) := by
  simp only [ParseOpusHeader, kOpusHeaderSize, kOpusHeaderChannelsOffset,
    kMaxChannels, kOpusHeaderSkipSamplesOffset, kOpusHeaderGainOffset,
    kOpusHeaderChannelMappingOffset, kMaxChannelsWithDefaultLayout,
    kOpusHeaderStreamMapOffset, kOpusHeaderNumStreamsOffset,
    kOpusHeaderNumCoupledStreamsOffset]
  rw [if_neg (by omega), if_neg (by omega), if_neg hfam, if_neg (by omega),
    if_neg (by omega)]

/-- C1 (code bug): for a 3-channel header written into an exactly-sized
24-byte buffer, `WriteOpusHeader` returns 25 = 22 + 3 — one more than
the `21 + channel_count` bytes of the header it laid out (and one more
than the capacity its own `total_size` check required) — while the
2-channel return value is 19 as claimed. -/
theorem write_return_value_off_by_one :
    (WriteOpusHeader hdrThree 48000 (List.replicate 24 0)).map Prod.fst = some 25 ∧
    (25 : Int) ≠ 21 + 3 ∧
    (WriteOpusHeader hdrTwo 48000 (List.replicate 23 0)).map Prod.fst = some 19 :=
  ⟨by decide, by decide, by decide⟩

/-- C2 counterexample: `WriteOpusHeader` does not reject out-of-range
channel counts.  With 9 channels and ample capacity it reaches the
out-of-bounds `kOpusChannelMap` lookup (modelled as `none`) instead of
failing with an error result, and with 0 channels it succeeds outright
(returning 19), so the claimed fail-fast rejection does not happen. -/
theorem write_no_channel_validation_cex :
    WriteOpusHeader hdrNine 48000 (List.replicate 30 0) = none ∧
    (WriteOpusHeader hdrZero 48000 (List.replicate 21 0)).map Prod.fst = some 19 :=
  ⟨by decide, by decide⟩

/-- C2 (amended): `WriteOpusHeader` performs no validation of
`channel_count`: a header with `channel_count = 0` is written via the
mono/stereo branch and succeeds with return value 19, and for
`channel_count > 8` with sufficient capacity the execution reaches the
out-of-bounds channel-map table lookup rather than failing fast; only
insufficient output capacity is rejected. -/
theorem write_no_channel_validation (h : OpusHeader) (rate : Nat) (buf : List Nat)
    (hcap : 21 + h.channels ≤ buf.length) :
    (h.channels = 0 → (WriteOpusHeader h rate buf).map Prod.fst = some 19) ∧
    (8 < h.channels → WriteOpusHeader h rate buf = none) := by
  constructor
  · intro hz
    rw [write_eq_le2 h rate buf (by omega)
      (by simp only [kOpusHeaderStreamMapOffset]; omega)]
    rfl
  · intro h9
    simp only [WriteOpusHeader, kOpusHeaderLabelOffset, kOpusHeaderVersionOffset,
      kOpusHeaderChannelsOffset, kOpusHeaderSkipSamplesOffset,
      kOpusHeaderSampleRateOffset, kOpusHeaderGainOffset,
      kOpusHeaderChannelMappingOffset, kOpusHeaderNumStreamsOffset,
      kOpusHeaderNumCoupledStreamsOffset, kOpusHeaderStreamMapOffset]
    rw [if_neg (by omega), if_pos (by omega),
      writeStreamMapAux_oob _ _ _ (by simp only [kMaxChannels]; omega) (by omega)]

theorem write_no_channel_validation_witness :
    21 + hdrNine.channels ≤ (List.replicate 30 (0 : Nat)).length ∧
    ((hdrNine.channels = 0 →
        (WriteOpusHeader hdrNine 48000 (List.replicate 30 0)).map Prod.fst = some 19) ∧
      (8 < hdrNine.channels →
        WriteOpusHeader hdrNine 48000 (List.replicate 30 0) = none)) :=
  ⟨by decide, write_no_channel_validation hdrNine 48000 (List.replicate 30 0) (by decide)⟩

/-- C3 counterexample: the buffer the claim asserts to exist does not —
this proves the negation: no input that passes the parser's 19-byte
minimum-length gate can starve the pre-skip field (second byte at
offset 11) or the gain field (second byte at offset 17), because both
field-ending offsets lie inside the first 19 bytes. -/
theorem lenient_read_unreachable_cex :
    ¬ ∃ (data : List Nat) (h0 : OpusHeader),
      19 ≤ data.length ∧ (ParseOpusHeader data h0).1 = true ∧
      (data.length ≤ 10 + 1 ∨ data.length ≤ 16 + 1) := by
  rintro ⟨data, h0, hlen, _, hstarve⟩
  omega

/-- C3 (amended): no such buffer exists — any buffer passing the
19-byte gate fully contains both 2-byte fields, so both parser calls
to `ReadLE16` take the normal branch and decode from the actual bytes;
the lenient zero-return branch is unreachable through
`ParseOpusHeader`. -/
theorem lenient_read_unreachable (data : List Nat) (hlen : 19 ≤ data.length) :
    ¬ 10 + 1 ≥ data.length ∧ ¬ 16 + 1 ≥ data.length ∧
    ReadLE16 data 10 = data.getD 10 0 + 256 * data.getD 11 0 ∧
    ReadLE16 data 16 = data.getD 16 0 + 256 * data.getD 17 0 := by
  refine ⟨by omega, by omega, ?_, ?_⟩
  · simpa using ReadLE16_of_lt data 10 (by omega)
  · simpa using ReadLE16_of_lt data 16 (by omega)

theorem lenient_read_unreachable_witness :
    19 ≤ (List.replicate 19 (3 : Nat)).length ∧
    (¬ 10 + 1 ≥ (List.replicate 19 (3 : Nat)).length ∧
      ¬ 16 + 1 ≥ (List.replicate 19 (3 : Nat)).length ∧
      ReadLE16 (List.replicate 19 3) 10 =
        (List.replicate 19 (3 : Nat)).getD 10 0 + 256 * (List.replicate 19 (3 : Nat)).getD 11 0 ∧
      ReadLE16 (List.replicate 19 3) 16 =
        (List.replicate 19 (3 : Nat)).getD 16 0 + 256 * (List.replicate 19 (3 : Nat)).getD 17 0) :=
  ⟨by decide, lenient_read_unreachable (List.replicate 19 3) (by decide)⟩

/-- C4 counterexample: an 18-byte buffer (rejected by the length gate,
the `TooShort` cause) and a zeroed 19-byte buffer (rejected for channel
count 0, the `InvalidChannelCount` cause) fail for different causes yet
produce the identical failure value `false`: the causes are not
mutually distinguishable from the value `ParseOpusHeader` returns. -/
theorem parse_errors_indistinguishable_cex :
    (List.replicate 18 (0 : Nat)).length < 19 ∧
    19 ≤ (List.replicate 19 (0 : Nat)).length ∧
    (List.replicate 19 (0 : Nat)).getD 9 0 = 0 ∧
    (ParseOpusHeader (List.replicate 18 0) hdrZero).1 = false ∧
    (ParseOpusHeader (List.replicate 19 0) hdrZero).1 = false ∧
    (ParseOpusHeader (List.replicate 18 0) hdrZero).1 =
      (ParseOpusHeader (List.replicate 19 0) hdrZero).1 := by
  refine ⟨by decide, by decide, by decide, by decide, by decide, by decide⟩

/-- C4 (amended): the parser reports every rejection to the caller as
the single Boolean value `false`; any two inputs on which the parse is
rejected — whatever the cause — therefore yield equal failure values,
and the five causes are distinguishable only in logging, not in the
returned value. -/
theorem parse_errors_single_value (d1 d2 : List Nat) (g1 g2 : OpusHeader)
    (hf1 : (ParseOpusHeader d1 g1).1 ≠ true)
    (hf2 : (ParseOpusHeader d2 g2).1 ≠ true) :
    (ParseOpusHeader d1 g1).1 = (ParseOpusHeader d2 g2).1 := by
  cases hb1 : (ParseOpusHeader d1 g1).1 <;>
    cases hb2 : (ParseOpusHeader d2 g2).1 <;> simp_all

theorem parse_errors_single_value_witness :
    (ParseOpusHeader (List.replicate 18 0) hdrZero).1 ≠ true ∧
    (ParseOpusHeader (List.replicate 19 0) hdrZero).1 ≠ true ∧
    (ParseOpusHeader (List.replicate 18 0) hdrZero).1 =
      (ParseOpusHeader (List.replicate 19 0) hdrZero).1 :=
  ⟨by decide, by decide,
    parse_errors_single_value _ _ _ _ (by decide) (by decide)⟩

/-- C10: for every input buffer of length at least 19 (with byte-valued
entries), `ParseOpusHeader` stores the raw channel byte (offset 9) into
the caller's header structure before validating it; in particular when
the byte is 0 or greater than 8 the parse fails, yet the out-parameter
already holds that invalid value — parsing is not atomic in its output
on error. -/
theorem parse_nonatomic_channels (data : List Nat) (h0 : OpusHeader)
    (hB : ∀ b ∈ data, b < 256) (hlen : 19 ≤ data.length) :
    (ParseOpusHeader data h0).2.channels = data.getD 9 0 ∧
    ((data.getD 9 0 = 0 ∨ 8 < data.getD 9 0) →
      (ParseOpusHeader data h0).1 = false) := by
  constructor
  · by_cases hch : data.getD 9 0 < 1 ∨ 8 < data.getD 9 0
    · rw [parse_badchannel data h0 hlen hch]
    · rw [not_or] at hch
      obtain ⟨hc1, hc8⟩ := hch
      by_cases hfam : data.getD 18 0 = 0
      · by_cases h2 : data.getD 9 0 ≤ 2
        · rw [parse_family0_le2 data h0 hlen (by omega) h2 hfam]
        · rw [parse_family0_gt2 data h0 hlen (by omega) (by omega) hfam]
      · by_cases hcap : 21 + data.getD 9 0 ≤ data.length
        · by_cases hsum : data.getD 19 0 + data.getD 20 0 = data.getD 9 0
          · rw [parse_familyN_ok data h0 hlen (by omega) (by omega) hfam hcap hsum]
          · rw [parse_inconsistent data h0 hlen (by omega) (by omega) hfam hcap hsum]
        · rw [parse_trunc data h0 hlen (by omega) (by omega) hfam (by omega)]
  · intro hbad
    rw [parse_badchannel data h0 hlen (by omega)]

theorem parse_nonatomic_channels_witness :
    (∀ b ∈ List.replicate 19 (9 : Nat), b < 256) ∧
    19 ≤ (List.replicate 19 (9 : Nat)).length ∧
    ((ParseOpusHeader (List.replicate 19 9) hdrZero).2.channels =
        (List.replicate 19 (9 : Nat)).getD 9 0 ∧
      (((List.replicate 19 (9 : Nat)).getD 9 0 = 0 ∨
          8 < (List.replicate 19 (9 : Nat)).getD 9 0) →
        (ParseOpusHeader (List.replicate 19 9) hdrZero).1 = false)) :=
  ⟨by decide, by decide,
    parse_nonatomic_channels (List.replicate 19 9) hdrZero (by decide) (by decide)⟩

/-- C8: for every header with `channel_count` in 1..=8, `WriteOpusHeader`
into a buffer of capacity exactly `21 + channel_count` succeeds (the
result is not the error value −1), while a capacity of
`20 + channel_count` fails with the error result −1 and leaves every
byte of the output buffer unchanged. -/
theorem write_capacity_boundary (h : OpusHeader) (rate : Nat) (buf buf' : List Nat)
    (h1 : 1 ≤ h.channels) (h8 : h.channels ≤ 8)
    (hb : buf.length = 21 + h.channels) (hb' : buf'.length = 20 + h.channels) :
    ((WriteOpusHeader h rate buf).isSome ∧
      (WriteOpusHeader h rate buf).map Prod.fst ≠ some (-1)) ∧
    WriteOpusHeader h rate buf' = some (-1, buf') := by
  refine ⟨?_, ?_⟩
  · by_cases h2 : h.channels ≤ 2
    · rw [write_eq_le2 h rate buf h2 (by simp only [kOpusHeaderStreamMapOffset]; omega)]
      exact ⟨rfl, by simp⟩
    · rw [write_eq_gt2 h rate buf (by omega) h8
        (by simp only [kOpusHeaderStreamMapOffset]; omega)]
      refine ⟨rfl, ?_⟩
      simp only [Option.map_some', ne_eq, Option.some.injEq]
      omega
  · simp only [WriteOpusHeader, kOpusHeaderStreamMapOffset]
    rw [if_pos (by omega)]

theorem write_capacity_boundary_witness :
    1 ≤ hdrSix.channels ∧ hdrSix.channels ≤ 8 ∧
    (List.replicate 27 (5 : Nat)).length = 21 + hdrSix.channels ∧
    (List.replicate 26 (5 : Nat)).length = 20 + hdrSix.channels ∧
    (((WriteOpusHeader hdrSix 44100 (List.replicate 27 5)).isSome ∧
        (WriteOpusHeader hdrSix 44100 (List.replicate 27 5)).map Prod.fst ≠ some (-1)) ∧
      WriteOpusHeader hdrSix 44100 (List.replicate 26 5) =
        some (-1, List.replicate 26 5)) :=
  ⟨by decide, by decide, by decide, by decide,
    write_capacity_boundary hdrSix 44100 (List.replicate 27 5) (List.replicate 26 5)
      (by decide) (by decide) (by decide) (by decide)⟩

/-- C9: on every successful write (channel count at most 8 and capacity
at least `21 + channel_count`), every byte of the caller's buffer at an
offset not explicitly assigned by the header layout is 0, because the
writer first zeroes the entire buffer: offsets at or beyond 19 when
`channel_count ≤ 2`, and offsets at or beyond `21 + channel_count`
otherwise. -/
theorem write_zero_fill (h : OpusHeader) (rate : Nat) (buf : List Nat) (j : Nat)
    (h1 : 1 ≤ h.channels) (h8 : h.channels ≤ 8)
    (hcap : 21 + h.channels ≤ buf.length)
    (hj2 : h.channels ≤ 2 → 19 ≤ j)
    (hjm : 2 < h.channels → 21 + h.channels ≤ j) :
    (WriteOpusHeader h rate buf).map (fun p => p.2.getD j 0) = some 0 := by
  by_cases h2 : h.channels ≤ 2
  · rw [write_eq_le2 h rate buf h2 (by simp only [kOpusHeaderStreamMapOffset]; omega)]
    have hj19 := hj2 h2
    simp only [Option.map_some', Option.some.injEq]
    rw [getD_set_ne _ _ _ _ (by omega), wbufFixed_getD_ge18 _ _ _ _ (by omega)]
  · rw [write_eq_gt2 h rate buf (by omega) h8
      (by simp only [kOpusHeaderStreamMapOffset]; omega)]
    have hjc := hjm (by omega)
    simp only [Option.map_some', Option.some.injEq]
    rw [mapFold_getD_hi _ _ _ _ (by simp only [kOpusHeaderStreamMapOffset]; omega),
      getD_set_ne _ _ _ _ (by omega), getD_set_ne _ _ _ _ (by omega),
      getD_set_ne _ _ _ _ (by omega), wbufFixed_getD_ge18 _ _ _ _ (by omega)]

theorem write_zero_fill_witness :
    1 ≤ hdrTwo.channels ∧ hdrTwo.channels ≤ 8 ∧
    21 + hdrTwo.channels ≤ (List.replicate 30 (7 : Nat)).length ∧
    (hdrTwo.channels ≤ 2 → 19 ≤ 20) ∧ (2 < hdrTwo.channels → 21 + hdrTwo.channels ≤ 20) ∧
    (WriteOpusHeader hdrTwo 44100 (List.replicate 30 7)).map (fun p => p.2.getD 20 0) =
      some 0 :=
  ⟨by decide, by decide, by decide, by decide, by decide,
    write_zero_fill hdrTwo 44100 (List.replicate 30 7) 20
      (by decide) (by decide) (by decide) (by decide) (by decide)⟩

/-- C7: for every header with `channel_count` in 3..=8 and sufficient
output capacity, the writer sets the mapping-family byte (offset 18) to
1, the stream-count byte (offset 19) to `channel_count`, the
coupled-stream-count byte (offset 20) to 0, and for each `i` below
`channel_count` the stream-map byte at offset `21 + i` to entry `i` of
the fixed channel-mapping-table row for that channel count (row
`channel_count − 1` of `kOpusChannelMapRows`; in particular row 3 is
`{0,1,2,3}` and row 5 is `{0,4,1,2,3,5}`). -/
theorem write_multichannel_layout (h : OpusHeader) (rate : Nat) (buf : List Nat) (i : Nat)
    (h3 : 3 ≤ h.channels) (h8 : h.channels ≤ 8)
    (hcap : 21 + h.channels ≤ buf.length) (hi : i < h.channels) :
    (WriteOpusHeader h rate buf).map (fun p => p.2.getD 18 0) = some 1 ∧
    (WriteOpusHeader h rate buf).map (fun p => p.2.getD 19 0) = some h.channels ∧
    (WriteOpusHeader h rate buf).map (fun p => p.2.getD 20 0) = some 0 ∧
    (WriteOpusHeader h rate buf).map (fun p => p.2.getD (21 + i) 0) =
      some ((kOpusChannelMapRows.getD (h.channels - 1) []).getD i 0) := by
  rw [write_eq_gt2 h rate buf (by omega) h8
    (by simp only [kOpusHeaderStreamMapOffset]; omega)]
  have hmlo := mapFold_getD_lo (h.channels - 1) h.channels
  simp only [kOpusHeaderStreamMapOffset] at hmlo
  refine ⟨?_, ?_, ?_, ?_⟩
  · simp only [Option.map_some', Option.some.injEq]
    rw [hmlo 18 _ (by omega), getD_set_ne _ _ _ _ (by omega),
      getD_set_ne _ _ _ _ (by omega), getD_set_self]
    rw [wbufFixed_length]
    omega
  · simp only [Option.map_some', Option.some.injEq]
    rw [hmlo 19 _ (by omega), getD_set_ne _ _ _ _ (by omega), getD_set_self]
    · exact Nat.mod_eq_of_lt (by omega)
    · simp only [List.length_set, wbufFixed_length]
      omega
  · simp only [Option.map_some', Option.some.injEq]
    rw [hmlo 20 _ (by omega), getD_set_self]
    simp only [List.length_set, wbufFixed_length]
    omega
  · simp only [Option.map_some', Option.some.injEq]
    have hmlt := mapFold_getD_lt (h.channels - 1) h.channels i
      ((((wbufFixed h rate buf.length).set 18 1).set 19 (h.channels % 256)).set 20 0)
      hi (by simp only [kOpusHeaderStreamMapOffset, List.length_set, wbufFixed_length]; omega)
    simp only [kOpusHeaderStreamMapOffset] at hmlt
    rw [hmlt]

theorem write_multichannel_layout_witness :
    3 ≤ hdrSix.channels ∧ hdrSix.channels ≤ 8 ∧
    21 + hdrSix.channels ≤ (List.replicate 27 (0 : Nat)).length ∧ 1 < hdrSix.channels ∧
    ((WriteOpusHeader hdrSix 44100 (List.replicate 27 0)).map (fun p => p.2.getD 18 0) = some 1 ∧
      (WriteOpusHeader hdrSix 44100 (List.replicate 27 0)).map (fun p => p.2.getD 19 0) =
        some hdrSix.channels ∧
      (WriteOpusHeader hdrSix 44100 (List.replicate 27 0)).map (fun p => p.2.getD 20 0) = some 0 ∧
      (WriteOpusHeader hdrSix 44100 (List.replicate 27 0)).map (fun p => p.2.getD (21 + 1) 0) =
        some ((kOpusChannelMapRows.getD (hdrSix.channels - 1) []).getD 1 0)) :=
  ⟨by decide, by decide, by decide, by decide,
    write_multichannel_layout hdrSix 44100 (List.replicate 27 0) 1
      (by decide) (by decide) (by decide) (by decide)⟩

/-- C6: for every byte buffer of length at least 19 whose channel byte
(offset 9) is in 1..=8, the parser's handling of the mapping-family
byte (offset 18) is: family 0 with more than 2 channels fails; family 0
with at most 2 channels succeeds with `num_streams = 1`,
`num_coupled = (channels > 1 ? 1 : 0)` and the first two stream-map
entries set to 0 and 1; nonzero family fails when the buffer is shorter
than `21 + channels`, otherwise fails when byte 19 plus byte 20 differs
from the channel count, and otherwise succeeds copying the `channels`
bytes starting at offset 21 verbatim into the stream map. -/
theorem parse_mapping_family_cases (data : List Nat) (h0 : OpusHeader)
    (hB : ∀ b ∈ data, b < 256) (hsm : h0.stream_map.length = 8)
    (hlen : 19 ≤ data.length)
    (h1 : 1 ≤ data.getD 9 0) (h8 : data.getD 9 0 ≤ 8) :
    (data.getD 18 0 = 0 → 2 < data.getD 9 0 →
      (ParseOpusHeader data h0).1 = false) ∧
    (data.getD 18 0 = 0 → data.getD 9 0 ≤ 2 →
      (ParseOpusHeader data h0).1 = true ∧
      (ParseOpusHeader data h0).2.num_streams = 1 ∧
      (ParseOpusHeader data h0).2.num_coupled = (if 1 < data.getD 9 0 then 1 else 0) ∧
      (ParseOpusHeader data h0).2.stream_map.getD 0 0 = 0 ∧
      (ParseOpusHeader data h0).2.stream_map.getD 1 0 = 1) ∧
    (data.getD 18 0 ≠ 0 → data.length < 21 + data.getD 9 0 →
      (ParseOpusHeader data h0).1 = false) ∧
    (data.getD 18 0 ≠ 0 → 21 + data.getD 9 0 ≤ data.length →
      (data.getD 19 0 + data.getD 20 0 ≠ data.getD 9 0 →
        (ParseOpusHeader data h0).1 = false) ∧
      (data.getD 19 0 + data.getD 20 0 = data.getD 9 0 →
        (ParseOpusHeader data h0).1 = true ∧
        ∀ i, i < data.getD 9 0 →
          (ParseOpusHeader data h0).2.stream_map.getD i 0 = data.getD (21 + i) 0)) := by
  refine ⟨?_, ?_, ?_, ?_⟩
  · intro hfam hgt
    rw [parse_family0_gt2 data h0 hlen hgt h8 hfam]
  · intro hfam hle
    rw [parse_family0_le2 data h0 hlen h1 hle hfam]
    refine ⟨rfl, rfl, rfl, ?_, ?_⟩
    · rw [getD_set_ne _ _ _ _ (by omega), getD_set_self]
      omega
    · rw [getD_set_self]
      simp only [List.length_set]
      omega
  · intro hfam hshort
    rw [parse_trunc data h0 hlen h1 h8 hfam hshort]
  · intro hfam hcap
    refine ⟨?_, ?_⟩
    · intro hsum
      rw [parse_inconsistent data h0 hlen h1 h8 hfam hcap hsum]
    · intro hsum
      rw [parse_familyN_ok data h0 hlen h1 h8 hfam hcap hsum]
      refine ⟨rfl, ?_⟩
      intro i hi
      have hcp := copyStreamMap_getD_lt data h0.stream_map (data.getD 9 0) i hi
        (by omega)
      simp only [kOpusHeaderStreamMapOffset] at hcp
      exact hcp

theorem parse_mapping_family_cases_witness :
    (∀ b ∈ [79, 112, 117, 115, 72, 101, 97, 100, 1, 3, 0, 0, 0, 0, 0, 0, 0, 0, 1, 2, 1, 11, 12, 13],
      b < 256) ∧
    hdrZero.stream_map.length = 8 ∧
    19 ≤ ([79, 112, 117, 115, 72, 101, 97, 100, 1, 3, 0, 0, 0, 0, 0, 0, 0, 0, 1, 2, 1, 11, 12, 13] : List Nat).length ∧
    1 ≤ ([79, 112, 117, 115, 72, 101, 97, 100, 1, 3, 0, 0, 0, 0, 0, 0, 0, 0, 1, 2, 1, 11, 12, 13] : List Nat).getD 9 0 ∧
    ([79, 112, 117, 115, 72, 101, 97, 100, 1, 3, 0, 0, 0, 0, 0, 0, 0, 0, 1, 2, 1, 11, 12, 13] : List Nat).getD 9 0 ≤ 8 ∧
    (ParseOpusHeader [79, 112, 117, 115, 72, 101, 97, 100, 1, 3, 0, 0, 0, 0, 0, 0, 0, 0, 1, 2, 1, 11, 12, 13] hdrZero).1 = true ∧
    (ParseOpusHeader [79, 112, 117, 115, 72, 101, 97, 100, 1, 3, 0, 0, 0, 0, 0, 0, 0, 0, 1, 2, 1, 11, 12, 13] hdrZero).2.stream_map.getD 1 0 = 12 := by
  refine ⟨by decide, by decide, by decide, by decide, by decide, ?_, ?_⟩
  · have hth := parse_mapping_family_cases
      [79, 112, 117, 115, 72, 101, 97, 100, 1, 3, 0, 0, 0, 0, 0, 0, 0, 0, 1, 2, 1, 11, 12, 13]
      hdrZero (by decide) (by decide) (by decide) (by decide) (by decide)
    exact ((hth.2.2.2 (by decide) (by decide)).2 (by decide)).1
  · have hth := parse_mapping_family_cases
      [79, 112, 117, 115, 72, 101, 97, 100, 1, 3, 0, 0, 0, 0, 0, 0, 0, 0, 1, 2, 1, 11, 12, 13]
      hdrZero (by decide) (by decide) (by decide) (by decide) (by decide)
    have := ((hth.2.2.2 (by decide) (by decide)).2 (by decide)).2 1 (by decide)
    simpa using this

/-- C5: for every header with channel count 1 or 2 (and 16-bit-valued
pre-skip and gain fields, as the C struct types impose), every input
sample rate and every output buffer of sufficient capacity, parsing the
bytes produced by `WriteOpusHeader` succeeds and recovers
`channel_count`, `pre_skip_samples` and `output_gain_db` exactly
(including negative gains), with `num_streams = 1` and
`num_coupled = 1` when the channel count exceeds 1, else 0. -/
theorem parse_write_roundtrip (h h0 : OpusHeader) (rate : Nat) (buf : List Nat)
    (hch : h.channels = 1 ∨ h.channels = 2)
    (hskip : h.skip_samples < 65536)
    (hgl : -32768 ≤ h.gain_db) (hgh : h.gain_db < 32768)
    (hcap : 21 + h.channels ≤ buf.length) :
    (WriteOpusHeader h rate buf).map (fun p => (ParseOpusHeader p.2 h0).1) =
      some true ∧
    (WriteOpusHeader h rate buf).map (fun p => (ParseOpusHeader p.2 h0).2.channels) =
      some h.channels ∧
    (WriteOpusHeader h rate buf).map (fun p => (ParseOpusHeader p.2 h0).2.skip_samples) =
      some h.skip_samples ∧
    (WriteOpusHeader h rate buf).map (fun p => (ParseOpusHeader p.2 h0).2.gain_db) =
      some h.gain_db ∧
    (WriteOpusHeader h rate buf).map (fun p => (ParseOpusHeader p.2 h0).2.num_streams) =
      some 1 ∧
    (WriteOpusHeader h rate buf).map (fun p => (ParseOpusHeader p.2 h0).2.num_coupled) =
      some (if 1 < h.channels then 1 else 0) := by
  have h2 : h.channels ≤ 2 := by omega
  have h1 : 1 ≤ h.channels := by omega
  rw [write_eq_le2 h rate buf h2 (by simp only [kOpusHeaderStreamMapOffset]; omega)]
  simp only [Option.map_some']
  set W := (wbufFixed h rate buf.length).set 18 0 with hW
  have elen : W.length = buf.length := by
    rw [hW]
    simp [wbufFixed_length]
  have e9 : W.getD 9 0 = h.channels := by
    rw [hW, getD_set_ne _ _ _ _ (by omega), wbufFixed_getD_9 h rate _ (by omega)]
    exact Nat.mod_eq_of_lt (by omega)
  have e10 : W.getD 10 0 = h.skip_samples % 256 := by
    rw [hW, getD_set_ne _ _ _ _ (by omega), wbufFixed_getD_10 h rate _ (by omega)]
  have e11 : W.getD 11 0 = h.skip_samples / 256 % 256 := by
    rw [hW, getD_set_ne _ _ _ _ (by omega), wbufFixed_getD_11 h rate _ (by omega)]
  have e16 : W.getD 16 0 = (h.gain_db % 65536).toNat % 256 := by
    rw [hW, getD_set_ne _ _ _ _ (by omega), wbufFixed_getD_16 h rate _ (by omega)]
  have e17 : W.getD 17 0 = (h.gain_db % 65536).toNat / 256 % 256 := by
    rw [hW, getD_set_ne _ _ _ _ (by omega), wbufFixed_getD_17 h rate _ (by omega)]
  have e18 : W.getD 18 0 = 0 := by
    rw [hW, getD_set_self]
    rw [wbufFixed_length]
    omega
  obtain ⟨p1, p2, p3, p4, p5, p6⟩ :=
    parse_family0_le2_proj W h0 (by omega) (by rw [e9]; omega) (by rw [e9]; omega) e18
  refine ⟨?_, ?_, ?_, ?_, ?_, ?_⟩
  · rw [p1]
  · rw [p2, e9]
  · rw [p3, ReadLE16_of_lt W 10 (by omega),
      show (10 : Nat) + 1 = 11 from rfl, e10, e11]
    simp only [Option.some.injEq]
    omega
  · have hcomp : (h.gain_db % 65536).toNat % 256 +
        256 * ((h.gain_db % 65536).toNat / 256 % 256) = (h.gain_db % 65536).toNat := by
      omega
    rw [p4, ReadLE16_of_lt W 16 (by omega),
      show (16 : Nat) + 1 = 17 from rfl, e16, e17, hcomp, toInt16]
    split_ifs with hbr
    · simp only [Option.some.injEq]
      omega
    · simp only [Option.some.injEq]
      omega
  · rw [p5]
  · rw [p6, e9]

theorem parse_write_roundtrip_witness :
    (hdrRt.channels = 1 ∨ hdrRt.channels = 2) ∧
    hdrRt.skip_samples < 65536 ∧
    -32768 ≤ hdrRt.gain_db ∧ hdrRt.gain_db < 32768 ∧
    21 + hdrRt.channels ≤ (List.replicate 23 (0 : Nat)).length ∧
    ((WriteOpusHeader hdrRt 44100 (List.replicate 23 0)).map
        (fun p => (ParseOpusHeader p.2 hdrZero).1) = some true ∧
      (WriteOpusHeader hdrRt 44100 (List.replicate 23 0)).map
        (fun p => (ParseOpusHeader p.2 hdrZero).2.channels) = some hdrRt.channels ∧
      (WriteOpusHeader hdrRt 44100 (List.replicate 23 0)).map
        (fun p => (ParseOpusHeader p.2 hdrZero).2.skip_samples) = some hdrRt.skip_samples ∧
      (WriteOpusHeader hdrRt 44100 (List.replicate 23 0)).map
        (fun p => (ParseOpusHeader p.2 hdrZero).2.gain_db) = some hdrRt.gain_db ∧
      (WriteOpusHeader hdrRt 44100 (List.replicate 23 0)).map
        (fun p => (ParseOpusHeader p.2 hdrZero).2.num_streams) = some 1 ∧
      (WriteOpusHeader hdrRt 44100 (List.replicate 23 0)).map
        (fun p => (ParseOpusHeader p.2 hdrZero).2.num_coupled) =
          some (if 1 < hdrRt.channels then 1 else 0)) :=
  ⟨by decide, by decide, by decide, by decide, by decide,
    parse_write_roundtrip hdrRt hdrZero 44100 (List.replicate 23 0)
      (by decide) (by decide) (by decide) (by decide) (by decide)⟩
